import Mathlib

/-!
# Verification of the XTL micro unit-test framework (`include/xtl/ut.hpp`)

This file is a shallow embedding of the registration, execution and
result-aggregation engine of the XTL unit-test framework, together with
theorems settling the specification claims about it.

Modelling conventions:
* C++ exceptions become an explicit `Exc` value threaded through the
  execution functions (`fatal_error`, `abort_exception`, other
  `std::exception`s, and unrecognized throws each get a constructor).
* A test-case body (arbitrary user code) is embedded as a list of
  `Action`s: an assertion-macro expansion (`XTL_UT_ASSERT`), a raw throw,
  or a direct `add_result` call.
* The manager singleton's mutable state (`results_`, `current_suite_`)
  and the running suite's `current_case_` member are gathered into one
  explicit state record `Ctx`.
* To express "hook/body X is invoked", the execution functions append an
  `Event` to an instrumentation trace exactly at the source locations
  where `run()` calls the setup hook, a case body, or the teardown hook.
* `std::this_thread::get_id()` for the (single-threaded) run driver is
  the constant `mainThread`; records produced by other threads simply
  carry other `thread_id` values.
-/

namespace xtl
namespace ut

/-- `result_type` from ut.hpp: the severity of one result record. -/
inductive result_type where
  | success
  | fail
  | error
  | exception
  | warning
deriving DecidableEq, Repr

/-- `to_string(result_type)` from ut.hpp (the enum is total, so the
`default: "UNKNOWN"` branch of the `switch` is unreachable). -/
def result_type.text : result_type → String
  | .success => "OK"
  | .fail => "FAIL"
  | .error => "ERROR"
  | .exception => "EXCEPTION"
  | .warning => "WARNING"

/-- `test_result` from ut.hpp: one immutable result record. -/
structure test_result where
  type : result_type
  line : Nat
  file_name : String
  suite_name : String
  case_name : String
  function_name : String
  message : String
  thread_id : Nat
deriving DecidableEq, Repr

/-- `test_result::make_result`; the implicit `std::this_thread::get_id()`
argument is passed explicitly as `tid`. -/
def test_result.make_result (t : result_type) (ln : Nat)
    (f s c fn msg : String) (tid : Nat) : test_result :=
  ⟨t, ln, f, s, c, fn, msg, tid⟩

/-- `test_result::make_success`. -/
def test_result.make_success (ln : Nat) (f s c : String) (tid : Nat) : test_result :=
  test_result.make_result .success ln f s c "" "" tid

/-- `test_result::make_fail`. -/
def test_result.make_fail (ln : Nat) (f s c fn msg : String) (tid : Nat) : test_result :=
  test_result.make_result .fail ln f s c fn msg tid

/-- `test_result::make_error`. -/
def test_result.make_error (ln : Nat) (f s c fn msg : String) (tid : Nat) : test_result :=
  test_result.make_result .error ln f s c fn msg tid

/-- `test_result::make_exception`. -/
def test_result.make_exception (ln : Nat) (f s c fn msg : String) (tid : Nat) : test_result :=
  test_result.make_result .exception ln f s c fn msg tid

/-- `test_result::make_warning`. -/
def test_result.make_warning (ln : Nat) (f s c fn msg : String) (tid : Nat) : test_result :=
  test_result.make_result .warning ln f s c fn msg tid

/-- `test_result::full_case_name`. -/
def test_result.full_case_name (r : test_result) : String :=
  r.suite_name ++ "::" ++ r.case_name

/-- `test_result::has_function_name`. -/
def test_result.has_function_name (r : test_result) : Bool :=
  !(r.function_name == "") && !(r.function_name == r.full_case_name)

/-- `test_result::to_string`: the one-line rendering of a record. -/
def test_result.to_string (r : test_result) : String :=
  r.type.text ++ " " ++
  (if r.has_function_name then
      r.full_case_name ++ ", " ++ r.function_name ++ "()"
    else
      r.full_case_name) ++
  " at " ++ r.file_name ++ ", line " ++ toString r.line ++
  (if r.message == "" then "" else " - " ++ r.message)

/-- The values a piece of test code can throw, as seen by the `catch`
clauses of `test_suite<T>::run` / `test_suite_manager::run`:
`fatal_error` (carrying `what()`), `abort_exception`, any other
`std::exception` (carrying `what()`), and any other thrown value. -/
inductive Exc where
  | fatal (msg : String)
  | abort
  | std (msg : String)
  | other
deriving DecidableEq, Repr

/-- Instrumentation events marking the source locations where `run()`
invokes the setup hook, a case body, and the teardown hook. -/
inductive Event where
  | setupEv (suite : String)
  | caseEv (suite tcase : String)
  | teardownEv (suite : String)
deriving DecidableEq, Repr

/-- One step of a test-case (or hook) body:
* `assertA cond isFatal line file func expText` is one expansion of
  `XTL_UT_ASSERT(exp, fatal)` — `cond` is the runtime value of `exp`,
  the remaining arguments are `__LINE__`, `__FILE__`, `__FUNCTION__`
  and the stringized expression text;
* `raiseExc e` is user code throwing `e`;
* `addRes r` is a direct call to `test_suite_manager::add_result`. -/
inductive Action where
  | assertA (cond isFatal : Bool) (line : Nat) (file func expText : String)
  | raiseExc (e : Exc)
  | addRes (r : test_result)
deriving DecidableEq, Repr

/-- A registered case: the fields of `test_case_registry<T>::test_case`
(`func_` — the member-function pointer, modelled as an opaque `Nat`
identity — plus `name_`, `file_`, `line_`), together with the behaviour
of the member function itself (`body`), which in C++ is reached through
`func_` and so is not part of the descriptor's identity. -/
structure CaseDesc where
  func : Nat
  name : String
  file : String
  line : Nat
  body : List Action
deriving DecidableEq, Repr

/-- A suite: name, the optional setup/teardown hooks of
`init_deinit_suite_` (hook bodies are action lists like case bodies),
and the registry storage in registration order. -/
structure Suite where
  name : String
  setupAct : Option (List Action)
  teardownAct : Option (List Action)
  cases : List CaseDesc
deriving DecidableEq, Repr

/-- The mutable state touched by a run: the manager's `results_` and
`current_suite_` (by suite name), the running suite's `current_case_`,
and the instrumentation trace. -/
structure Ctx where
  results : List test_result
  curSuiteName : Option String
  curCase : Option CaseDesc
  trace : List Event
deriving DecidableEq, Repr

/-- Thread id of the run driver. -/
def mainThread : Nat := 0

/-- `test_case_registry<T>::add_case`: append `nc` unless some stored
case has the same `func_` identity. -/
def add_case (cases : List CaseDesc) (nc : CaseDesc) : List CaseDesc :=
  if cases.any (fun v => nc.func == v.func) then cases else cases ++ [nc]

/-- The registry contents after a sequence of `test_case` constructor
calls (each calls `add_case`), starting from empty storage. -/
def registerAll (regs : List CaseDesc) : List CaseDesc :=
  regs.foldl add_case []

/-- Message of the `fatal_error` raised by `current_suite()` outside a run. -/
def currentSuiteMsg : String :=
  "[XTL UT] Error getting current suite: no unit test currently is running."

/-- Message of the `fatal_error` raised by `case_name()` outside a case. -/
def caseNameMsg : String :=
  "[XTL UT] Error getting current test case name: no unit test currently is running."

/-- Message of the `fatal_error` raised by `add_result` outside a run. -/
def addResultMsg (r : test_result) : String :=
  "[XTL UT] Error adding test result: no unit test currently is running." ++
    " [" ++ r.to_string ++ "]"

/-- `test_suite_manager::current_suite`: raises `fatal_error` when no
suite is current, otherwise yields the current suite (by name). -/
def current_suite (c : Ctx) : Except Exc String :=
  match c.curSuiteName with
  | none => .error (.fatal currentSuiteMsg)
  | some s => .ok s

/-- `test_suite<T>::case_name`: raises `fatal_error` when the suite's
`current_case_` is null, otherwise yields the case name. -/
def case_name (c : Ctx) : Except Exc String :=
  match c.curCase with
  | none => .error (.fatal caseNameMsg)
  | some tc => .ok tc.name

/-- `test_suite_manager::add_result`: raises `fatal_error` when
`current_suite_` is null, otherwise appends the record under the lock. -/
def add_result (c : Ctx) (r : test_result) : Except Exc Ctx :=
  match c.curSuiteName with
  | none => .error (.fatal (addResultMsg r))
  | some _ => .ok { c with results := c.results ++ [r] }

/-- One expansion of `XTL_UT_ASSERT(exp, fatal)`: when `exp` is false,
look up the current suite (may raise), the current case name (may
raise), record a `fail` result, and when `fatal` call `abort_test()`. -/
def assertStep (cond isFatal : Bool) (line : Nat)
    (file func expText : String) (c : Ctx) : Ctx × Option Exc :=
  if cond then (c, none)
  else
    match current_suite c with
    | .error e => (c, some e)
    | .ok sname =>
      match case_name c with
      | .error e => (c, some e)
      | .ok cname =>
        match add_result c (test_result.make_fail line file sname cname func
            ("Assertion failed: " ++ expText) mainThread) with
        | .error e => (c, some e)
        | .ok c1 => if isFatal then (c1, some .abort) else (c1, none)

/-- Execute one body action. -/
def stepAction (c : Ctx) : Action → Ctx × Option Exc
  | .assertA cond isFatal ln fl fn ex => assertStep cond isFatal ln fl fn ex c
  | .raiseExc e => (c, some e)
  | .addRes r =>
    match add_result c r with
    | .ok c1 => (c1, none)
    | .error e => (c, some e)

/-- Execute a body: actions run in order; a raised value skips the rest
of the body (stack unwinding). -/
def runBody (acts : List Action) (c : Ctx) : Ctx × Option Exc :=
  match acts with
  | [] => (c, none)
  | a :: rest =>
    match stepAction c a with
    | (c1, none) => runBody rest c1
    | (c1, some e) => (c1, some e)

/-- `test_suite<T>::add_success`. -/
def add_success (sname : String) (tc : CaseDesc) (c : Ctx) : Except Exc Ctx :=
  add_result c (test_result.make_success tc.line tc.file sname tc.name mainThread)

/-- `test_suite<T>::add_error`. -/
def add_error (sname : String) (tc : CaseDesc) (msg : String) (c : Ctx) :
    Except Exc Ctx :=
  add_result c (test_result.make_error tc.line tc.file sname tc.name "" msg mainThread)

/-- `test_suite<T>::add_exception`. -/
def add_exception (sname : String) (tc : CaseDesc) (msg : String) (c : Ctx) :
    Except Exc Ctx :=
  add_result c (test_result.make_exception tc.line tc.file sname tc.name "" msg mainThread)

/-- The `catch` cascade of the per-case `try` in `test_suite<T>::run`:
`fatal_error` → `add_error` then rethrow; `abort_exception` → swallow;
other `std::exception` → `add_exception(what())`; anything else →
`add_exception("Unhandled exception")`. A `fatal_error` raised by the
`add_*` call inside a handler itself propagates. -/
def handleCaseExc (sname : String) (tc : CaseDesc) (e : Exc) (c : Ctx) :
    Ctx × Option Exc :=
  match e with
  | .fatal m =>
    match add_error sname tc m c with
    | .ok c1 => (c1, some (.fatal m))
    | .error e1 => (c, some e1)
  | .abort => (c, none)
  | .std m =>
    match add_exception sname tc m c with
    | .ok c1 => (c1, none)
    | .error e1 => (c, some e1)
  | .other =>
    match add_exception sname tc "Unhandled exception" c with
    | .ok c1 => (c1, none)
    | .error e1 => (c, some e1)

/-- The context a case body is started in: `current_case_` set to this
case, and the `caseEv` logged at the `(suite().*func)()` call. -/
def bodyCtx (sname : String) (tc : CaseDesc) (c : Ctx) : Ctx :=
  { c with curCase := some tc, trace := c.trace ++ [Event.caseEv sname tc.name] }

/-- One iteration of the case loop of `test_suite<T>::run`: set
`current_case_` to this case, invoke the body (logging a `caseEv`), on
normal return `add_success` (inside the same `try`), and dispatch
raised values through the `catch` cascade. -/
def caseStep (sname : String) (tc : CaseDesc) (c : Ctx) : Ctx × Option Exc :=
  let br := runBody tc.body (bodyCtx sname tc c)
  match br.2 with
  | none =>
    match add_success sname tc br.1 with
    | .ok c2 => (c2, none)
    | .error e => handleCaseExc sname tc e br.1
  | some e => handleCaseExc sname tc e br.1

/-- The case loop of `test_suite<T>::run`: iterate `caseStep` over the
registry storage; a propagating raised value ends the loop. -/
def caseLoop (sname : String) (tcs : List CaseDesc) (c : Ctx) : Ctx × Option Exc :=
  match tcs with
  | [] => (c, none)
  | tc :: rest =>
    match caseStep sname tc c with
    | (c2, none) => caseLoop sname rest c2
    | (c2, some e) => (c2, some e)

/-- Outcome of `test_suite<T>::run` (and of the manager's suite loop):
normal return, a propagating raised value, or `std::terminate` (a
teardown hook throwing during stack unwinding). -/
inductive SOut where
  | normal
  | exc (e : Exc)
  | died
deriving DecidableEq, Repr

/-- The `suite_initializer` constructor: run the setup hook when present
(logging a `setupEv` at the call). -/
def setup_phase (s : Suite) (c : Ctx) : Ctx × Option Exc :=
  match s.setupAct with
  | none => (c, none)
  | some acts => runBody acts { c with trace := c.trace ++ [Event.setupEv s.name] }

/-- The `suite_initializer` destructor: run the teardown hook when
present (logging a `teardownEv` at the call). -/
def teardown_phase (s : Suite) (c : Ctx) : Ctx × Option Exc :=
  match s.teardownAct with
  | none => (c, none)
  | some acts => runBody acts { c with trace := c.trace ++ [Event.teardownEv s.name] }

/-- `test_suite<T>::run`: construct the `suite_initializer` (setup; if
it throws the destructor does not run and the value propagates), run
the case loop, then on the normal path clear `current_case_` and run
the destructor (teardown); on an exceptional path the destructor runs
during unwinding with `current_case_` left as it was, and a teardown
throw during unwinding is `std::terminate` (`SOut.died`). -/
def suite_run (s : Suite) (c : Ctx) : Ctx × SOut :=
  match setup_phase s c with
  | (c1, some e) => (c1, .exc e)
  | (c1, none) =>
    match caseLoop s.name s.cases c1 with
    | (c2, none) =>
      let c3 : Ctx := { c2 with curCase := none }
      match teardown_phase s c3 with
      | (c4, none) => (c4, .normal)
      | (c4, some e) => (c4, .exc e)
    | (c2, some e) =>
      match teardown_phase s c2 with
      | (c4, none) => (c4, .exc e)
      | (c4, some _) => (c4, .died)

/-- The suite loop of `test_suite_manager::run`: set `current_suite_`
and run each suite; a propagating value ends the loop (leaving
`current_suite_` set). -/
def runSuites (ss : List Suite) (c : Ctx) : Ctx × SOut :=
  match ss with
  | [] => (c, .normal)
  | s :: rest =>
    match suite_run s { c with curSuiteName := some s.name } with
    | (c1, .normal) => runSuites rest c1
    | (c1, o) => (c1, o)

/-- `EXIT_SUCCESS`. -/
def EXIT_SUCCESS : Nat := 0

/-- `test_suite_manager::process_results`: render every record, in
collection order, one line each, and return `EXIT_SUCCESS`. -/
def process_results (rs : List test_result) : List String × Nat :=
  (rs.map test_result.to_string, EXIT_SUCCESS)

/-- Stands for `__FILE__` inside ut.hpp. -/
def utHppFile : String := "ut.hpp"

/-- Stands for `__FUNCTION__` inside `test_suite_manager::run`. -/
def managerRunFunc : String := "run"

/-- The synthetic record pushed by the `catch (...)` of
`test_suite_manager::run`. -/
def managerCatchAllRecord : test_result :=
  test_result.make_exception 0 utHppFile "test_suite_manager" managerRunFunc ""
    "Unhandled exception" mainThread

/-- `test_suite_manager::run`: run the suites; on normal completion
clear `current_suite_`; a propagating `fatal_error` is swallowed; any
other propagating value gets the synthetic catch-all record appended
directly to `results_`; then `process_results()` renders the report.
The result is the final state plus, unless the process died, the report
lines and the exit status. -/
def manager_run (ss : List Suite) (c : Ctx) : Ctx × Option (List String × Nat) :=
  match runSuites ss c with
  | (c1, .normal) =>
    let c2 : Ctx := { c1 with curSuiteName := none }
    (c2, some (process_results c2.results))
  | (c1, .exc (.fatal _)) => (c1, some (process_results c1.results))
  | (c1, .exc _) =>
    let c2 : Ctx := { c1 with results := c1.results ++ [managerCatchAllRecord] }
    (c2, some (process_results c2.results))
  | (c1, .died) => (c1, none)

/-- A sequence of `add_result` calls as serialized by the manager's
result lock: the list order is the lock-acquisition order. -/
def add_results_seq (rs : List test_result) (c : Ctx) : Except Exc Ctx :=
  match rs with
  | [] => .ok c
  | r :: rest =>
    match add_result c r with
    | .ok c1 => add_results_seq rest c1
    | .error e => .error e

/-- An action that does not throw `fatal_error` directly (assertions
and direct `add_result` calls are allowed: during a case they can only
produce `abort_exception` or succeed). -/
def actionNoFatal : Action → Bool
  | .raiseExc (.fatal _) => false
  | _ => true

/-- A body that never throws `fatal_error` directly. -/
def bodyNoFatal (acts : List Action) : Bool :=
  acts.all actionNoFatal

/-- An action that raises nothing at all: a passing assertion, or
direct result emission (under a live suite context). -/
def actionPure : Action → Bool
  | .assertA cond _ _ _ _ _ => cond
  | .raiseExc _ => false
  | .addRes _ => true

/-- A hook body that raises nothing at all. -/
def pureHook (acts : List Action) : Bool :=
  acts.all actionPure

/-! ## Concrete runs used as witnesses and counterexamples -/

/-- The state before any run: no results, no current suite or case. -/
def startCtx : Ctx := ⟨[], none, none, []⟩

/-- Scenario of §8 of the spec: suite `S` with cases `a`, `b`, `c`
where only `b` contains one failing non-fatal check. -/
def tcScA : CaseDesc := ⟨1, "a", "sc.cpp", 10, []⟩

def tcScB : CaseDesc :=
  ⟨2, "b", "sc.cpp", 20, [.assertA false false 21 "sc.cpp" "b" "x == y"]⟩

def tcScC : CaseDesc := ⟨3, "c", "sc.cpp", 30, []⟩

def suiteSc : Suite := ⟨"S", none, none, [tcScA, tcScB, tcScC]⟩

/-- A suite with setup and teardown hooks and two cases (`K = 2`) whose
first case throws `fatal_error`. -/
def tcFatal1 : CaseDesc := ⟨1, "k1", "cx.cpp", 5, [.raiseExc (.fatal "kaboom")]⟩

def tcAfterFatal : CaseDesc := ⟨2, "k2", "cx.cpp", 6, []⟩

def suiteCX1 : Suite := ⟨"CX1", some [], some [], [tcFatal1, tcAfterFatal]⟩

/-- A one-case suite whose case throws `fatal_error`. -/
def tcBoom : CaseDesc := ⟨1, "boom", "cx.cpp", 7, [.raiseExc (.fatal "halt")]⟩

def suiteCX3 : Suite := ⟨"CX3", none, none, [tcBoom]⟩

/-- A suite that would run after a fatally-aborted one. -/
def tcNever : CaseDesc := ⟨1, "never", "cx.cpp", 8, []⟩

def suiteNever : Suite := ⟨"NEVER", none, none, [tcNever]⟩

/-- A suite whose first case fails a fatal-to-case requirement
(`XTL_UT_REQUIRE`) and has more body behind it, followed by a second
case; the suite has a teardown hook. -/
def tcReq : CaseDesc :=
  ⟨1, "r", "rq.cpp", 40,
    [.assertA false true 41 "rq.cpp" "r" "p != q",
     .addRes (test_result.make_warning 0 "" "" "" "" "never reached" 0)]⟩

def tcAfterReq : CaseDesc := ⟨2, "g", "rq.cpp", 50, []⟩

def suiteReq : Suite := ⟨"R", none, some [], [tcReq, tcAfterReq]⟩

/-- A suite run after `suiteReq`. -/
def tcNext : CaseDesc := ⟨1, "n", "rq.cpp", 60, []⟩

def suiteNext : Suite := ⟨"S2", none, none, [tcNext]⟩

/-- A suite whose setup hook throws a `std::exception`. -/
def tcUnreached : CaseDesc := ⟨1, "u", "se.cpp", 70, []⟩

def suiteSetupThrow : Suite :=
  ⟨"E", some [.raiseExc (.std "setup boom")], some [], [tcUnreached]⟩

/-- A suite with hooks whose cases never throw `fatal_error` (the
second aborts itself). -/
def tcOk1 : CaseDesc := ⟨1, "o1", "ok.cpp", 1, []⟩

def tcOk2 : CaseDesc := ⟨2, "o2", "ok.cpp", 2, [.raiseExc .abort]⟩

def suiteOk : Suite := ⟨"OK1", some [], some [], [tcOk1, tcOk2]⟩

/-- The state right after `suiteCX3`'s case threw `fatal_error` and
the `error` record was appended. -/
def cx3ErrCtx : Ctx :=
  ⟨[test_result.make_error 7 "cx.cpp" "CX3" "boom" "" "halt" mainThread],
    some "CX3", some tcBoom, [Event.caseEv "CX3" "boom"]⟩

/-- The state after the suite loop over `[suiteSc]` completes. -/
def scFinalCtx : Ctx :=
  ⟨[test_result.make_success 10 "sc.cpp" "S" "a" mainThread,
    test_result.make_fail 21 "sc.cpp" "S" "b" "b" "Assertion failed: x == y" mainThread,
    test_result.make_success 20 "sc.cpp" "S" "b" mainThread,
    test_result.make_success 30 "sc.cpp" "S" "c" mainThread],
    some "S", none,
    [Event.caseEv "S" "a", Event.caseEv "S" "b", Event.caseEv "S" "c"]⟩

/-! ## Basic lemmas about the manager primitives -/

theorem add_result_ok {c : Ctx} (r : test_result) {nm : String}
    (h : c.curSuiteName = some nm) :
    add_result c r = .ok { c with results := c.results ++ [r] } := by
  simp [add_result, h]

theorem add_result_none {c : Ctx} (r : test_result)
    (h : c.curSuiteName = none) :
    add_result c r = .error (.fatal (addResultMsg r)) := by
  simp [add_result, h]

theorem add_result_shape {c c' : Ctx} {r : test_result}
    (h : add_result c r = .ok c') :
    c' = { c with results := c.results ++ [r] } := by
  unfold add_result at h
  cases hcs : c.curSuiteName with
  | none => rw [hcs] at h; cases h
  | some nm =>
    rw [hcs] at h
    injection h with h2
    exact h2.symm

/-- `stepAction` only ever appends result records: the current suite,
current case and trace are untouched by body actions. -/
theorem stepAction_pres (c : Ctx) (a : Action) :
    (stepAction c a).1.curSuiteName = c.curSuiteName ∧
    (stepAction c a).1.curCase = c.curCase ∧
    (stepAction c a).1.trace = c.trace := by
  cases a with
  | assertA cond isFatal ln fl fn ex =>
    unfold stepAction assertStep current_suite case_name add_result
    by_cases hc : cond
    · simp [hc]
    · simp only [hc, if_false]
      cases hcs : c.curSuiteName with
      | none => simp [hcs]
      | some nm =>
        cases hcc : c.curCase with
        | none => simp [hcs, hcc]
        | some tc =>
          by_cases hf : isFatal <;> simp [hf, hcs, hcc]
  | raiseExc e => simp [stepAction]
  | addRes r =>
    unfold stepAction add_result
    cases hcs : c.curSuiteName with
    | none => simp [hcs]
    | some nm => simp [hcs]

theorem runBody_pres (acts : List Action) (c : Ctx) :
    (runBody acts c).1.curSuiteName = c.curSuiteName ∧
    (runBody acts c).1.curCase = c.curCase ∧
    (runBody acts c).1.trace = c.trace := by
  induction acts generalizing c with
  | nil => simp [runBody]
  | cons a rest ih =>
    have hp := stepAction_pres c a
    unfold runBody
    rcases h : stepAction c a with ⟨c1, o⟩
    rw [h] at hp
    cases o with
    | none =>
      have := ih c1
      simp only at hp ⊢
      exact ⟨by rw [this.1, hp.1], by rw [this.2.1, hp.2.1], by rw [this.2.2, hp.2.2]⟩
    | some e => exact hp

/-! ## Lemmas about one case iteration -/

theorem handleCaseExc_fatal {c : Ctx} {nm : String} (sname : String)
    (tc : CaseDesc) (m : String) (hs : c.curSuiteName = some nm) :
    handleCaseExc sname tc (.fatal m) c =
      ({ c with results := c.results ++
          [test_result.make_error tc.line tc.file sname tc.name "" m mainThread] },
        some (.fatal m)) := by
  simp only [handleCaseExc]
  unfold add_error
  rw [add_result_ok _ hs]

theorem handleCaseExc_abort {c : Ctx} (sname : String) (tc : CaseDesc) :
    handleCaseExc sname tc .abort c = (c, none) := rfl

theorem handleCaseExc_std {c : Ctx} {nm : String} (sname : String)
    (tc : CaseDesc) (m : String) (hs : c.curSuiteName = some nm) :
    handleCaseExc sname tc (.std m) c =
      ({ c with results := c.results ++
          [test_result.make_exception tc.line tc.file sname tc.name "" m mainThread] },
        none) := by
  simp only [handleCaseExc]
  unfold add_exception
  rw [add_result_ok _ hs]

theorem handleCaseExc_other {c : Ctx} {nm : String} (sname : String)
    (tc : CaseDesc) (hs : c.curSuiteName = some nm) :
    handleCaseExc sname tc .other c =
      ({ c with results := c.results ++
          [test_result.make_exception tc.line tc.file sname tc.name ""
            "Unhandled exception" mainThread] },
        none) := by
  simp only [handleCaseExc]
  unfold add_exception
  rw [add_result_ok _ hs]

theorem bodyCtx_curSuiteName (sname : String) (tc : CaseDesc) (c : Ctx) :
    (bodyCtx sname tc c).curSuiteName = c.curSuiteName := rfl

/-- A case whose body returns normally: one `success` record is added. -/
theorem caseStep_ok {c cb : Ctx} {nm : String} {sname : String} {tc : CaseDesc}
    (hs : c.curSuiteName = some nm)
    (hbr : runBody tc.body (bodyCtx sname tc c) = (cb, none)) :
    caseStep sname tc c =
      ({ cb with results := cb.results ++
          [test_result.make_success tc.line tc.file sname tc.name mainThread] },
        none) := by
  have hcb : cb.curSuiteName = some nm := by
    have h := (runBody_pres tc.body (bodyCtx sname tc c)).1
    rw [hbr] at h
    rw [h, bodyCtx_curSuiteName, hs]
  simp only [caseStep, hbr]
  simp only [add_success, add_result_ok _ hcb]

/-- A case whose body raises `fatal_error`: one `error` record is added
and the `fatal_error` is rethrown. -/
theorem caseStep_fatal {c cb : Ctx} {nm : String} {sname : String} {tc : CaseDesc}
    {m : String}
    (hs : c.curSuiteName = some nm)
    (hbr : runBody tc.body (bodyCtx sname tc c) = (cb, some (.fatal m))) :
    caseStep sname tc c =
      ({ cb with results := cb.results ++
          [test_result.make_error tc.line tc.file sname tc.name "" m mainThread] },
        some (.fatal m)) := by
  have hcb : cb.curSuiteName = some nm := by
    have h := (runBody_pres tc.body (bodyCtx sname tc c)).1
    rw [hbr] at h
    rw [h, bodyCtx_curSuiteName, hs]
  simp only [caseStep, hbr]
  exact handleCaseExc_fatal sname tc m hcb

/-- A case whose body raises `abort_exception`: swallowed, no record. -/
theorem caseStep_abort {c cb : Ctx} {sname : String} {tc : CaseDesc}
    (hbr : runBody tc.body (bodyCtx sname tc c) = (cb, some .abort)) :
    caseStep sname tc c = (cb, none) := by
  simp only [caseStep, hbr]
  rfl

/-- A case whose body raises another `std::exception`: one `exception`
record with its message is added and execution continues. -/
theorem caseStep_std {c cb : Ctx} {nm : String} {sname : String} {tc : CaseDesc}
    {m : String}
    (hs : c.curSuiteName = some nm)
    (hbr : runBody tc.body (bodyCtx sname tc c) = (cb, some (.std m))) :
    caseStep sname tc c =
      ({ cb with results := cb.results ++
          [test_result.make_exception tc.line tc.file sname tc.name "" m mainThread] },
        none) := by
  have hcb : cb.curSuiteName = some nm := by
    have h := (runBody_pres tc.body (bodyCtx sname tc c)).1
    rw [hbr] at h
    rw [h, bodyCtx_curSuiteName, hs]
  simp only [caseStep, hbr]
  exact handleCaseExc_std sname tc m hcb

/-- A case whose body raises an unrecognized value: one `exception`
record with message "Unhandled exception" is added. -/
theorem caseStep_other {c cb : Ctx} {nm : String} {sname : String} {tc : CaseDesc}
    (hs : c.curSuiteName = some nm)
    (hbr : runBody tc.body (bodyCtx sname tc c) = (cb, some .other)) :
    caseStep sname tc c =
      ({ cb with results := cb.results ++
          [test_result.make_exception tc.line tc.file sname tc.name ""
            "Unhandled exception" mainThread] },
        none) := by
  have hcb : cb.curSuiteName = some nm := by
    have h := (runBody_pres tc.body (bodyCtx sname tc c)).1
    rw [hbr] at h
    rw [h, bodyCtx_curSuiteName, hs]
  simp only [caseStep, hbr]
  exact handleCaseExc_other sname tc hcb

/-! ## Exception analysis of body actions -/

/-- Under a live suite and case context, an action that is not a direct
`fatal_error` throw never produces a `fatal_error`. -/
theorem stepAction_no_fatal {c : Ctx} {nm : String} {tc : CaseDesc}
    (hs : c.curSuiteName = some nm) (hc : c.curCase = some tc) {a : Action}
    (ha : actionNoFatal a = true) (m : String) :
    (stepAction c a).2 ≠ some (.fatal m) := by
  cases a with
  | assertA cond isFatal ln fl fn ex =>
    unfold stepAction assertStep
    by_cases hcnd : cond
    · simp [hcnd]
    · simp only [hcnd, if_false]
      simp only [current_suite, hs, case_name, hc]
      simp only [add_result_ok _ hs]
      by_cases hf : isFatal <;> simp [hf]
  | raiseExc e =>
    cases e with
    | fatal m2 => simp [actionNoFatal] at ha
    | abort => simp [stepAction]
    | std m2 => simp [stepAction]
    | other => simp [stepAction]
  | addRes r =>
    unfold stepAction
    simp only [add_result_ok _ hs]
    simp

/-- Under a live suite and case context, a body with no direct
`fatal_error` throw never lets a `fatal_error` escape. -/
theorem runBody_no_fatal {acts : List Action} {c : Ctx} {nm : String} {tc : CaseDesc}
    (hs : c.curSuiteName = some nm) (hc : c.curCase = some tc)
    (hnf : bodyNoFatal acts = true) (m : String) :
    (runBody acts c).2 ≠ some (.fatal m) := by
  induction acts generalizing c with
  | nil => simp [runBody]
  | cons a rest ih =>
    simp only [bodyNoFatal, List.all_cons, Bool.and_eq_true] at hnf
    have hp := stepAction_pres c a
    unfold runBody
    rcases hst : stepAction c a with ⟨c1, o⟩
    rw [hst] at hp
    simp only at hp
    cases o with
    | none =>
      exact ih (c := c1) (hp.1.trans hs) (hp.2.1.trans hc)
        (by simpa [bodyNoFatal] using hnf.2)
    | some e =>
      have := stepAction_no_fatal hs hc hnf.1 m
      rw [hst] at this
      simpa using this

/-! ## Preservation of the current-suite pointer -/

theorem handleCaseExc_curSuite (sname : String) (tc : CaseDesc) (e : Exc) (c : Ctx) :
    (handleCaseExc sname tc e c).1.curSuiteName = c.curSuiteName := by
  cases e <;>
    cases hcs : c.curSuiteName <;>
      simp [handleCaseExc, add_error, add_exception, add_result, hcs]

theorem caseStep_curSuite (sname : String) (tc : CaseDesc) (c : Ctx) :
    (caseStep sname tc c).1.curSuiteName = c.curSuiteName := by
  unfold caseStep
  rcases hbr : runBody tc.body (bodyCtx sname tc c) with ⟨cb, ob⟩
  have hcb : cb.curSuiteName = c.curSuiteName := by
    have h := (runBody_pres tc.body (bodyCtx sname tc c)).1
    rw [hbr] at h
    simpa [bodyCtx] using h
  cases ob with
  | none =>
    simp only
    cases hadd : add_success sname tc cb with
    | ok c2 =>
      have := add_result_shape hadd
      subst this
      exact hcb
    | error e => exact (handleCaseExc_curSuite sname tc e cb).trans hcb
  | some e =>
    simp only
    exact (handleCaseExc_curSuite sname tc e cb).trans hcb

theorem caseLoop_curSuite (sname : String) (tcs : List CaseDesc) (c : Ctx) :
    (caseLoop sname tcs c).1.curSuiteName = c.curSuiteName := by
  induction tcs generalizing c with
  | nil => rfl
  | cons tc rest ih =>
    have h2 := caseStep_curSuite sname tc c
    rcases hcs : caseStep sname tc c with ⟨c2, o⟩
    rw [hcs] at h2
    simp only at h2
    cases o with
    | none =>
      simp only [caseLoop, hcs]
      rw [ih c2, h2]
    | some e =>
      simp only [caseLoop, hcs]
      exact h2

/-! ## The case loop -/

theorem caseLoop_append {sname : String} {l1 : List CaseDesc} (l2 : List CaseDesc)
    {c c' : Ctx} (h : caseLoop sname l1 c = (c', none)) :
    caseLoop sname (l1 ++ l2) c = caseLoop sname l2 c' := by
  induction l1 generalizing c with
  | nil =>
    simp only [caseLoop] at h
    injection h with h1 h2
    rw [List.nil_append, h1]
  | cons tc rest ih =>
    rcases hcs : caseStep sname tc c with ⟨c2, o⟩
    simp only [caseLoop, hcs] at h
    rw [List.cons_append]
    simp only [caseLoop, hcs]
    cases o with
    | none => exact ih h
    | some e => simp at h

/-- With a live suite and no case body throwing `fatal_error`, the case
loop completes, logging exactly one `caseEv` per registered case, in
registry order. -/
theorem caseLoop_ok {sname nm : String} {tcs : List CaseDesc} {c : Ctx}
    (hs : c.curSuiteName = some nm)
    (hall : ∀ tc ∈ tcs, bodyNoFatal tc.body = true) :
    ∃ c', caseLoop sname tcs c = (c', none) ∧
      c'.trace = c.trace ++ tcs.map (fun tc => Event.caseEv sname tc.name) ∧
      c'.curSuiteName = some nm := by
  induction tcs generalizing c with
  | nil => exact ⟨c, rfl, by simp, hs⟩
  | cons tc rest ih =>
    rcases hbr : runBody tc.body (bodyCtx sname tc c) with ⟨cb, ob⟩
    have hpres := runBody_pres tc.body (bodyCtx sname tc c)
    rw [hbr] at hpres
    have hcbs : cb.curSuiteName = some nm := by
      have h := hpres.1
      simp only [bodyCtx] at h
      rw [h]
      exact hs
    have hcbt : cb.trace = c.trace ++ [Event.caseEv sname tc.name] := by
      have h := hpres.2.2
      simp only [bodyCtx] at h
      simpa using h
    have hrest : ∀ t ∈ rest, bodyNoFatal t.body = true :=
      fun t ht => hall t (List.mem_cons_of_mem _ ht)
    have htail : ∀ c2 : Ctx, caseStep sname tc c = (c2, none) →
        c2.curSuiteName = some nm →
        c2.trace = c.trace ++ [Event.caseEv sname tc.name] →
        ∃ c', caseLoop sname (tc :: rest) c = (c', none) ∧
          c'.trace = c.trace ++ (tc :: rest).map (fun t => Event.caseEv sname t.name) ∧
          c'.curSuiteName = some nm := by
      intro c2 hstep h2s h2t
      obtain ⟨c', h1, ht, hcs'⟩ := ih (c := c2) h2s hrest
      refine ⟨c', ?_, ?_, hcs'⟩
      · simp only [caseLoop, hstep]
        exact h1
      · rw [ht, h2t, List.map_cons, List.append_assoc]
        rfl
    cases ob with
    | none =>
      exact htail _ (caseStep_ok hs hbr) hcbs hcbt
    | some e =>
      cases e with
      | fatal m =>
        exact absurd (by rw [hbr])
          (runBody_no_fatal (c := bodyCtx sname tc c) hs rfl (hall tc (by simp)) m)
      | abort =>
        exact htail cb (caseStep_abort hbr) hcbs hcbt
      | std m =>
        exact htail _ (caseStep_std hs hbr) hcbs hcbt
      | other =>
        exact htail _ (caseStep_other hs hbr) hcbs hcbt

/-! ## Hook bodies -/

/-- Under a live suite, a hook body that raises nothing only appends
result records. -/
theorem runBody_pure {acts : List Action} {c : Ctx} {nm : String}
    (hs : c.curSuiteName = some nm) (hp : pureHook acts = true) :
    ∃ rs, runBody acts c = ({ c with results := c.results ++ rs }, none) := by
  induction acts generalizing c with
  | nil => exact ⟨[], by simp [runBody]⟩
  | cons a rest ih =>
    simp only [pureHook, List.all_cons, Bool.and_eq_true] at hp
    cases a with
    | assertA cond isFatal ln fl fn ex =>
      have hc : cond = true := by simpa [actionPure] using hp.1
      subst hc
      have hst : stepAction c (.assertA true isFatal ln fl fn ex) = (c, none) := by
        simp [stepAction, assertStep]
      unfold runBody
      rw [hst]
      exact ih hs (by simpa [pureHook] using hp.2)
    | raiseExc e => simp [actionPure] at hp
    | addRes r =>
      have hst : stepAction c (.addRes r) =
          ({ c with results := c.results ++ [r] }, none) := by
        simp [stepAction, add_result_ok _ hs]
      unfold runBody
      rw [hst]
      obtain ⟨rs, hrs⟩ :=
        ih (c := { c with results := c.results ++ [r] }) hs
          (by simpa [pureHook] using hp.2)
      refine ⟨[r] ++ rs, ?_⟩
      show runBody rest { c with results := c.results ++ [r] } =
        ({ c with results := c.results ++ ([r] ++ rs) }, none)
      rw [hrs]
      simp

theorem setup_phase_none {s : Suite} (c : Ctx) (h : s.setupAct = none) :
    setup_phase s c = (c, none) := by
  unfold setup_phase
  rw [h]

theorem teardown_phase_none {s : Suite} (c : Ctx) (h : s.teardownAct = none) :
    teardown_phase s c = (c, none) := by
  unfold teardown_phase
  rw [h]

/-- A raising setup hook produces exactly the raising run of its body,
started on the state with the `setupEv` logged. -/
theorem setup_phase_some {s : Suite} (c : Ctx) {su : List Action}
    (h : s.setupAct = some su) :
    setup_phase s c =
      runBody su { c with trace := c.trace ++ [Event.setupEv s.name] } := by
  unfold setup_phase
  rw [h]

theorem teardown_phase_some {s : Suite} (c : Ctx) {td : List Action}
    (h : s.teardownAct = some td) :
    teardown_phase s c =
      runBody td { c with trace := c.trace ++ [Event.teardownEv s.name] } := by
  unfold teardown_phase
  rw [h]

/-- A non-raising setup hook: logs one `setupEv` and appends only
result records. -/
theorem setup_phase_pure {s : Suite} {c : Ctx} {nm : String} {su : List Action}
    (hs : c.curSuiteName = some nm) (hset : s.setupAct = some su)
    (hp : pureHook su = true) :
    ∃ rs, setup_phase s c =
      ({ c with results := c.results ++ rs
              , trace := c.trace ++ [Event.setupEv s.name] }, none) := by
  rw [setup_phase_some c hset]
  obtain ⟨rs, hrs⟩ :=
    runBody_pure (c := { c with trace := c.trace ++ [Event.setupEv s.name] }) hs hp
  exact ⟨rs, hrs⟩

/-- A non-raising teardown hook: logs one `teardownEv` and appends only
result records. -/
theorem teardown_phase_pure {s : Suite} {c : Ctx} {nm : String} {td : List Action}
    (hs : c.curSuiteName = some nm) (htd : s.teardownAct = some td)
    (hp : pureHook td = true) :
    ∃ rs, teardown_phase s c =
      ({ c with results := c.results ++ rs
              , trace := c.trace ++ [Event.teardownEv s.name] }, none) := by
  rw [teardown_phase_some c htd]
  obtain ⟨rs, hrs⟩ :=
    runBody_pure (c := { c with trace := c.trace ++ [Event.teardownEv s.name] }) hs hp
  exact ⟨rs, hrs⟩

theorem setup_phase_curSuite (s : Suite) (c : Ctx) :
    (setup_phase s c).1.curSuiteName = c.curSuiteName := by
  unfold setup_phase
  cases h : s.setupAct with
  | none => rfl
  | some acts =>
    have := (runBody_pres acts { c with trace := c.trace ++ [Event.setupEv s.name] }).1
    simpa using this

theorem teardown_phase_curSuite (s : Suite) (c : Ctx) :
    (teardown_phase s c).1.curSuiteName = c.curSuiteName := by
  unfold teardown_phase
  cases h : s.teardownAct with
  | none => rfl
  | some acts =>
    have := (runBody_pres acts { c with trace := c.trace ++ [Event.teardownEv s.name] }).1
    simpa using this

theorem teardown_phase_curCase (s : Suite) (c : Ctx) :
    (teardown_phase s c).1.curCase = c.curCase := by
  unfold teardown_phase
  cases h : s.teardownAct with
  | none => rfl
  | some acts =>
    have := (runBody_pres acts { c with trace := c.trace ++ [Event.teardownEv s.name] }).2.1
    simpa using this

/-! ## Whole-suite runs -/

/-- Setup completes, all cases are dispatched, teardown completes:
the suite run returns normally. -/
theorem suite_run_ok {s : Suite} {c csp c2 ct : Ctx}
    (hsp : setup_phase s c = (csp, none))
    (hcl : caseLoop s.name s.cases csp = (c2, none))
    (htd : teardown_phase s { c2 with curCase := none } = (ct, none)) :
    suite_run s c = (ct, .normal) := by
  simp only [suite_run, hsp, hcl, htd]

/-- A raised value escapes the case loop: teardown still runs (the
`suite_initializer` destructor, during unwinding) and the value
propagates out of the suite's `run()`. -/
theorem suite_run_exc {s : Suite} {c csp c2 ct : Ctx} {e : Exc}
    (hsp : setup_phase s c = (csp, none))
    (hcl : caseLoop s.name s.cases csp = (c2, some e))
    (htd : teardown_phase s c2 = (ct, none)) :
    suite_run s c = (ct, .exc e) := by
  simp only [suite_run, hsp, hcl, htd]

/-- The setup hook raises: no case is dispatched, the destructor does
not run (the constructor did not complete), the value propagates. -/
theorem suite_run_setup_exc {s : Suite} {c c1 : Ctx} {e : Exc}
    (hsp : setup_phase s c = (c1, some e)) :
    suite_run s c = (c1, .exc e) := by
  simp only [suite_run, hsp]

theorem runSuites_append {l1 : List Suite} (l2 : List Suite) {c c' : Ctx}
    (h : runSuites l1 c = (c', .normal)) :
    runSuites (l1 ++ l2) c = runSuites l2 c' := by
  induction l1 generalizing c with
  | nil =>
    simp only [runSuites] at h
    injection h with h1 h2
    rw [List.nil_append, h1]
  | cons s rest ih =>
    rcases hsr : suite_run s { c with curSuiteName := some s.name } with ⟨c1, o⟩
    simp only [runSuites, hsr] at h
    rw [List.cons_append]
    simp only [runSuites, hsr]
    cases o with
    | normal => exact ih h
    | exc e => simp at h
    | died => simp at h

theorem runSuites_cons_exc {s : Suite} (rest : List Suite) {c c1 : Ctx} {e : Exc}
    (h : suite_run s { c with curSuiteName := some s.name } = (c1, .exc e)) :
    runSuites (s :: rest) c = (c1, .exc e) := by
  simp only [runSuites, h]

/-- A propagating `fatal_error` is swallowed by the manager: the state
is untouched and the already-collected results are reported. -/
theorem manager_run_fatal {ss : List Suite} {c c1 : Ctx} {m : String}
    (h : runSuites ss c = (c1, .exc (.fatal m))) :
    manager_run ss c = (c1, some (c1.results.map test_result.to_string, EXIT_SUCCESS)) := by
  simp only [manager_run, h]
  rfl

/-- Any other propagating value hits the manager's `catch (...)`:
one synthetic record is appended, then the report is produced. -/
theorem manager_run_catch_all {ss : List Suite} {c c1 : Ctx} {e : Exc}
    (h : runSuites ss c = (c1, .exc e)) (hnf : ∀ m, e ≠ .fatal m) :
    manager_run ss c =
      ({ c1 with results := c1.results ++ [managerCatchAllRecord] },
        some ((c1.results ++ [managerCatchAllRecord]).map test_result.to_string,
          EXIT_SUCCESS)) := by
  cases e with
  | fatal m => exact absurd rfl (hnf m)
  | abort => simp only [manager_run, h]; rfl
  | std m => simp only [manager_run, h]; rfl
  | other => simp only [manager_run, h]; rfl

/-- Normal completion: `current_suite_` is cleared and the report is
produced. -/
theorem manager_run_normal {ss : List Suite} {c c1 : Ctx}
    (h : runSuites ss c = (c1, .normal)) :
    manager_run ss c =
      ({ c1 with curSuiteName := none },
        some (c1.results.map test_result.to_string, EXIT_SUCCESS)) := by
  simp only [manager_run, h]
  rfl

/-- Normal case loop but the teardown hook raises on the normal path:
the raised value propagates out of the suite's `run()`. -/
theorem suite_run_td_exc {s : Suite} {c csp c2 c4 : Ctx} {e : Exc}
    (hsp : setup_phase s c = (csp, none))
    (hcl : caseLoop s.name s.cases csp = (c2, none))
    (htd : teardown_phase s { c2 with curCase := none } = (c4, some e)) :
    suite_run s c = (c4, .exc e) := by
  simp only [suite_run, hsp, hcl, htd]

/-- A raised value escapes the case loop and the teardown hook then
raises during unwinding: `std::terminate`. -/
theorem suite_run_exc_died {s : Suite} {c csp c2 c4 : Ctx} {e e2 : Exc}
    (hsp : setup_phase s c = (csp, none))
    (hcl : caseLoop s.name s.cases csp = (c2, some e))
    (htd : teardown_phase s c2 = (c4, some e2)) :
    suite_run s c = (c4, .died) := by
  simp only [suite_run, hsp, hcl, htd]

/-- A suite with non-raising hooks and no fatal-throwing case body runs
to normal completion, logging setup once, then each case once in
registry order, then teardown once. -/
theorem suite_run_trace_ok {s : Suite} {c : Ctx} {nm : String} {su td : List Action}
    (hs : c.curSuiteName = some nm)
    (hsu : s.setupAct = some su) (hpu : pureHook su = true)
    (htd : s.teardownAct = some td) (hpt : pureHook td = true)
    (hall : ∀ tc ∈ s.cases, bodyNoFatal tc.body = true) :
    ∃ c', suite_run s c = (c', .normal) ∧
      c'.trace = c.trace ++ [Event.setupEv s.name] ++
        s.cases.map (fun tc => Event.caseEv s.name tc.name) ++
        [Event.teardownEv s.name] := by
  obtain ⟨rs1, hsp⟩ := setup_phase_pure hs hsu hpu
  obtain ⟨c2, hcl, hclt, hcls⟩ :=
    @caseLoop_ok s.name nm s.cases
      { c with results := c.results ++ rs1, trace := c.trace ++ [Event.setupEv s.name] }
      hs hall
  have h3s : ({ c2 with curCase := none } : Ctx).curSuiteName = some nm := hcls
  obtain ⟨rs2, htdp⟩ := teardown_phase_pure h3s htd hpt
  refine ⟨_, suite_run_ok hsp hcl htdp, ?_⟩
  show ({ c2 with curCase := none } : Ctx).trace ++ [Event.teardownEv s.name] = _
  show c2.trace ++ [Event.teardownEv s.name] = _
  rw [hclt]

/-- A case body throwing `fatal_error` after some earlier cases have
completed: the `error` record is appended right after that body's run,
the teardown destructor still runs during unwinding, and the
`fatal_error` propagates out of the suite's `run()`; the cases after
the throwing one are never dispatched. -/
theorem suite_run_fatal_case {s : Suite} {c csp cp cb ct : Ctx} {nm m : String}
    {pre post : List CaseDesc} {tc : CaseDesc}
    (hs : c.curSuiteName = some nm)
    (hcases : s.cases = pre ++ tc :: post)
    (hsp : setup_phase s c = (csp, none))
    (hpre : caseLoop s.name pre csp = (cp, none))
    (hbr : runBody tc.body (bodyCtx s.name tc cp) = (cb, some (.fatal m)))
    (htd : teardown_phase s
      { cb with results := cb.results ++
          [test_result.make_error tc.line tc.file s.name tc.name "" m mainThread] } =
      (ct, none)) :
    suite_run s c = (ct, .exc (.fatal m)) := by
  have hsps : csp.curSuiteName = some nm := by
    have h := setup_phase_curSuite s c
    rw [hsp] at h
    simp only at h
    rw [h]
    exact hs
  have hcps : cp.curSuiteName = some nm := by
    have h := caseLoop_curSuite s.name pre csp
    rw [hpre] at h
    simp only at h
    rw [h]
    exact hsps
  have hstep := caseStep_fatal hcps hbr
  have hloop : caseLoop s.name s.cases csp =
      ({ cb with results := cb.results ++
          [test_result.make_error tc.line tc.file s.name tc.name "" m mainThread] },
        some (.fatal m)) := by
    rw [hcases, caseLoop_append _ hpre]
    simp only [caseLoop, hstep]
  exact suite_run_exc hsp hloop htd

/-- On normal completion `test_suite<T>::run` leaves `current_case_`
null. -/
theorem suite_run_normal_curCase {s : Suite} {c ct : Ctx}
    (h : suite_run s c = (ct, .normal)) : ct.curCase = none := by
  rcases hsp : setup_phase s c with ⟨c1, o1⟩
  cases o1 with
  | some e => rw [suite_run_setup_exc hsp] at h; simp at h
  | none =>
    rcases hcl : caseLoop s.name s.cases c1 with ⟨c2, o2⟩
    cases o2 with
    | none =>
      rcases htd : teardown_phase s { c2 with curCase := none } with ⟨c4, o4⟩
      cases o4 with
      | none =>
        rw [suite_run_ok hsp hcl htd] at h
        injection h with h1 _
        have hx := teardown_phase_curCase s { c2 with curCase := none }
        rw [htd] at hx
        rw [← h1]
        exact hx
      | some e => rw [suite_run_td_exc hsp hcl htd] at h; simp at h
    | some e =>
      rcases htd : teardown_phase s c2 with ⟨c4, o4⟩
      cases o4 with
      | none => rw [suite_run_exc hsp hcl htd] at h; simp at h
      | some e2 => rw [suite_run_exc_died hsp hcl htd] at h; simp at h

/-- On normal completion of the whole suite loop, `current_case_` stays
null (each suite cleared its own). -/
theorem runSuites_normal_curCase {ss : List Suite} {c c' : Ctx}
    (h0 : c.curCase = none) (h : runSuites ss c = (c', .normal)) :
    c'.curCase = none := by
  induction ss generalizing c with
  | nil =>
    simp only [runSuites] at h
    injection h with h1 _
    rw [← h1]
    exact h0
  | cons s rest ih =>
    rcases hsr : suite_run s { c with curSuiteName := some s.name } with ⟨c1, o⟩
    simp only [runSuites, hsr] at h
    cases o with
    | normal => exact ih (suite_run_normal_curCase hsr) h
    | exc e => simp at h
    | died => simp at h

/-! ## Remaining helper lemmas -/

theorem add_results_seq_ok {rs : List test_result} {c : Ctx} {nm : String}
    (hs : c.curSuiteName = some nm) :
    add_results_seq rs c = .ok { c with results := c.results ++ rs } := by
  induction rs generalizing c with
  | nil => simp [add_results_seq]
  | cons r rest ih =>
    simp only [add_results_seq, add_result_ok _ hs]
    rw [ih (c := { c with results := c.results ++ [r] }) hs]
    simp

theorem foldl_add_case_nodup (regs acc : List CaseDesc)
    (h : (acc.map CaseDesc.func).Nodup) :
    ((regs.foldl add_case acc).map CaseDesc.func).Nodup := by
  induction regs generalizing acc with
  | nil => simpa using h
  | cons d rest ih =>
    apply ih
    unfold add_case
    by_cases hany : acc.any (fun v => d.func == v.func)
    · rw [if_pos hany]
      exact h
    · rw [if_neg hany]
      have hnot : d.func ∉ acc.map CaseDesc.func := by
        intro hmem
        rcases List.mem_map.mp hmem with ⟨v, hv, hfv⟩
        exact hany (List.any_eq_true.mpr ⟨v, hv, by simp [hfv]⟩)
      simp [List.nodup_append, h, hnot]

/-- A failed `XTL_UT_ASSERT(exp, fatal)` under a live suite/case
context: exactly one `fail` record tagged with expression text, source
location and enclosing function, then `abort_test()` when fatal. -/
theorem assert_fail_step {c : Ctx} {nm : String} {tc : CaseDesc}
    (isFatal : Bool) (ln : Nat) (fl fn ex : String)
    (hs : c.curSuiteName = some nm) (hc : c.curCase = some tc) :
    stepAction c (.assertA false isFatal ln fl fn ex) =
      ({ c with results := c.results ++
          [test_result.make_fail ln fl nm tc.name fn ("Assertion failed: " ++ ex) mainThread] },
        if isFatal then some .abort else none) := by
  unfold stepAction assertStep
  simp only [current_suite, hs, case_name, hc, add_result_ok _ hs]
  by_cases hf : isFatal <;> simp [hf]

/-! ## Claims -/

/-- C6: whenever no run is in progress (`current_suite_` null), invoking
an assertion, calling `add_result`, or querying the current suite or
current case raises the framework-usage `fatal_error`; with a current
suite, `add_result` appends the record and does not raise. -/
theorem C6_no_run_context_raises_fatal :
    (∀ c : Ctx, c.curSuiteName = none →
      current_suite c = .error (.fatal currentSuiteMsg)) ∧
    (∀ c : Ctx, c.curCase = none →
      case_name c = .error (.fatal caseNameMsg)) ∧
    (∀ (c : Ctx) (r : test_result), c.curSuiteName = none →
      add_result c r = .error (.fatal (addResultMsg r))) ∧
    (∀ (c : Ctx) (isFatal : Bool) (ln : Nat) (fl fn ex : String),
      c.curSuiteName = none →
      stepAction c (.assertA false isFatal ln fl fn ex) =
        (c, some (.fatal currentSuiteMsg))) ∧
    (∀ (c : Ctx) (r : test_result) (nm : String), c.curSuiteName = some nm →
      add_result c r = .ok { c with results := c.results ++ [r] }) := by
  refine ⟨?_, ?_, ?_, ?_, ?_⟩
  · intro c h
    simp [current_suite, h]
  · intro c h
    simp [case_name, h]
  · intro c r h
    exact add_result_none r h
  · intro c isFatal ln fl fn ex h
    simp [stepAction, assertStep, current_suite, h]
  · intro c r nm h
    exact add_result_ok r h

/-- Witness for C6 at concrete states. -/
theorem C6_no_run_context_raises_fatal_witness :
    current_suite startCtx = .error (.fatal currentSuiteMsg) ∧
    case_name startCtx = .error (.fatal caseNameMsg) ∧
    add_result startCtx managerCatchAllRecord =
      .error (.fatal (addResultMsg managerCatchAllRecord)) ∧
    stepAction startCtx (.assertA false true 3 "w.cpp" "f" "1 == 2") =
      (startCtx, some (.fatal currentSuiteMsg)) ∧
    add_result { startCtx with curSuiteName := some "W" } managerCatchAllRecord =
      .ok { startCtx with curSuiteName := some "W"
                        , results := startCtx.results ++ [managerCatchAllRecord] } :=
  ⟨C6_no_run_context_raises_fatal.1 startCtx rfl,
   C6_no_run_context_raises_fatal.2.1 startCtx rfl,
   C6_no_run_context_raises_fatal.2.2.1 startCtx managerCatchAllRecord rfl,
   C6_no_run_context_raises_fatal.2.2.2.1 startCtx true 3 "w.cpp" "f" "1 == 2" rfl,
   C6_no_run_context_raises_fatal.2.2.2.2
     { startCtx with curSuiteName := some "W" } managerCatchAllRecord "W" rfl⟩

/-- C7: registering a descriptor whose `func_` identity is already
present is a no-op; double registration yields one entry; entries have
pairwise-distinct identities; the registry is append-only, extended in
first-registration order. -/
theorem C7_registry_dedup_append_only :
    (∀ (cases : List CaseDesc) (nc v : CaseDesc), v ∈ cases → v.func = nc.func →
      add_case cases nc = cases) ∧
    (∀ (cases : List CaseDesc) (nc : CaseDesc),
      add_case (add_case cases nc) nc = add_case cases nc) ∧
    (∀ regs : List CaseDesc, ((registerAll regs).map CaseDesc.func).Nodup) ∧
    (∀ (cases : List CaseDesc) (nc : CaseDesc),
      ∃ suf, add_case cases nc = cases ++ suf) ∧
    (∀ (regs : List CaseDesc) (d : CaseDesc),
      registerAll (regs ++ [d]) =
        if (registerAll regs).any (fun v => d.func == v.func) then registerAll regs
        else registerAll regs ++ [d]) := by
  refine ⟨?_, ?_, ?_, ?_, ?_⟩
  · intro cases nc v hv hf
    unfold add_case
    rw [if_pos (List.any_eq_true.mpr ⟨v, hv, by simp [hf]⟩)]
  · intro cases nc
    by_cases h : cases.any (fun v => nc.func == v.func)
    · unfold add_case
      rw [if_pos h, if_pos h]
    · have h1 : add_case cases nc = cases ++ [nc] := by
        unfold add_case
        rw [if_neg h]
      rw [h1]
      unfold add_case
      rw [if_pos (List.any_eq_true.mpr ⟨nc, by simp, by simp⟩)]
  · intro regs
    exact foldl_add_case_nodup regs [] (by simp)
  · intro cases nc
    by_cases h : cases.any (fun v => nc.func == v.func)
    · exact ⟨[], by simp [add_case, h]⟩
    · exact ⟨[nc], by simp [add_case, h]⟩
  · intro regs d
    simp only [registerAll, List.foldl_append, List.foldl_cons, List.foldl_nil]
    rfl

/-- Witness for C7: a second registration with the same identity is
dropped. -/
theorem C7_registry_dedup_append_only_witness :
    tcScA ∈ [tcScA] ∧ tcScA.func = tcScA.func ∧
    add_case [tcScA] tcScA = [tcScA] :=
  ⟨by simp, rfl, C7_registry_dedup_append_only.1 [tcScA] tcScA tcScA (by simp) rfl⟩

/-- C8: `process_results` renders every collected record in collection
order, one line per record in the documented format with one of the
five severity texts, and returns `EXIT_SUCCESS` regardless of the
records' severities. -/
theorem C8_report_renders_all_records_success_exit :
    (∀ rs : List test_result,
      process_results rs = (rs.map test_result.to_string, EXIT_SUCCESS)) ∧
    (∀ rt : result_type,
      rt.text = "OK" ∨ rt.text = "FAIL" ∨ rt.text = "ERROR" ∨
      rt.text = "EXCEPTION" ∨ rt.text = "WARNING") ∧
    (∀ r : test_result, r.to_string =
      r.type.text ++ " " ++
      (if r.has_function_name then
          r.full_case_name ++ ", " ++ r.function_name ++ "()"
        else
          r.full_case_name) ++
      " at " ++ r.file_name ++ ", line " ++ toString r.line ++
      (if r.message == "" then "" else " - " ++ r.message)) := by
  refine ⟨fun rs => rfl, ?_, fun r => rfl⟩
  intro rt
  cases rt <;> simp [result_type.text]

/-- C9: `add_result` calls serialized by the result lock (in
lock-acquisition order `rs`) each append exactly one record: the final
list is the old list extended by `rs`, so the count grows by exactly
the number of calls, with no lost or duplicated entries. -/
theorem C9_serialized_appends_lose_nothing :
    ∀ (rs : List test_result) (c : Ctx) (nm : String),
      c.curSuiteName = some nm →
      add_results_seq rs c = .ok { c with results := c.results ++ rs } ∧
      (c.results ++ rs).length = c.results.length + rs.length := by
  intro rs c nm hs
  exact ⟨add_results_seq_ok hs, by simp⟩

/-- Witness for C9: two records, produced by two different threads. -/
theorem C9_serialized_appends_lose_nothing_witness :
    add_results_seq
        [test_result.make_fail 1 "t.cpp" "S" "a" "worker" "m1" 1,
         test_result.make_fail 2 "t.cpp" "S" "a" "worker" "m2" 2]
        { startCtx with curSuiteName := some "S" } =
      .ok { startCtx with curSuiteName := some "S"
                        , results := startCtx.results ++
                            [test_result.make_fail 1 "t.cpp" "S" "a" "worker" "m1" 1,
                             test_result.make_fail 2 "t.cpp" "S" "a" "worker" "m2" 2] } ∧
    (startCtx.results ++
      [test_result.make_fail 1 "t.cpp" "S" "a" "worker" "m1" 1,
       test_result.make_fail 2 "t.cpp" "S" "a" "worker" "m2" 2]).length =
      startCtx.results.length + 2 :=
  C9_serialized_appends_lose_nothing
    [test_result.make_fail 1 "t.cpp" "S" "a" "worker" "m1" 1,
     test_result.make_fail 2 "t.cpp" "S" "a" "worker" "m2" 2]
    { startCtx with curSuiteName := some "S" } "S" rfl

/-- C4: a false non-fatal check appends exactly one `fail` record with
expression text, location, function name and the current suite/case
attribution, and execution continues; the `a`/`b`/`c` scenario yields
exactly 4 records in order `a=success, b=fail, b=success, c=success`. -/
theorem C4_nonfatal_check_one_fail_and_continue :
    (∀ (c : Ctx) (nm : String) (tc : CaseDesc) (ln : Nat) (fl fn ex : String),
      c.curSuiteName = some nm → c.curCase = some tc →
      stepAction c (.assertA false false ln fl fn ex) =
        ({ c with results := c.results ++
            [test_result.make_fail ln fl nm tc.name fn
              ("Assertion failed: " ++ ex) mainThread] },
          none)) ∧
    ((manager_run [suiteSc] startCtx).1.results =
      [test_result.make_success 10 "sc.cpp" "S" "a" mainThread,
       test_result.make_fail 21 "sc.cpp" "S" "b" "b" "Assertion failed: x == y" mainThread,
       test_result.make_success 20 "sc.cpp" "S" "b" mainThread,
       test_result.make_success 30 "sc.cpp" "S" "c" mainThread]) := by
  constructor
  · intro c nm tc ln fl fn ex hs hc
    simpa using assert_fail_step false ln fl fn ex hs hc
  · rfl

/-- Witness for C4's general part at a concrete context. -/
theorem C4_nonfatal_check_one_fail_and_continue_witness :
    stepAction { startCtx with curSuiteName := some "S", curCase := some tcScB }
        (.assertA false false 21 "sc.cpp" "b" "x == y") =
      ({ startCtx with curSuiteName := some "S", curCase := some tcScB
                     , results := startCtx.results ++
                         [test_result.make_fail 21 "sc.cpp" "S" "b" "b"
                           ("Assertion failed: " ++ "x == y") mainThread] },
        none) :=
  C4_nonfatal_check_one_fail_and_continue.1
    { startCtx with curSuiteName := some "S", curCase := some tcScB }
    "S" tcScB 21 "sc.cpp" "b" "x == y" rfl rfl

/-- C5: a false fatal-to-case requirement first records the `fail`
record, then raises the case-abort signal; the rest of that body does
not run, no extra record is emitted for the abort, the teardown still
runs, and subsequent cases and suites still run. -/
theorem C5_require_fail_aborts_case_only :
    (∀ (c : Ctx) (nm : String) (tc : CaseDesc) (ln : Nat) (fl fn ex : String),
      c.curSuiteName = some nm → c.curCase = some tc →
      stepAction c (.assertA false true ln fl fn ex) =
        ({ c with results := c.results ++
            [test_result.make_fail ln fl nm tc.name fn
              ("Assertion failed: " ++ ex) mainThread] },
          some .abort)) ∧
    (∀ (rest : List Action) (c : Ctx) (nm : String) (tc : CaseDesc)
        (ln : Nat) (fl fn ex : String),
      c.curSuiteName = some nm → c.curCase = some tc →
      runBody (.assertA false true ln fl fn ex :: rest) c =
        ({ c with results := c.results ++
            [test_result.make_fail ln fl nm tc.name fn
              ("Assertion failed: " ++ ex) mainThread] },
          some .abort)) ∧
    ((manager_run [suiteReq, suiteNext] startCtx).1.results =
      [test_result.make_fail 41 "rq.cpp" "R" "r" "r" "Assertion failed: p != q" mainThread,
       test_result.make_success 50 "rq.cpp" "R" "g" mainThread,
       test_result.make_success 60 "rq.cpp" "S2" "n" mainThread]) ∧
    ((manager_run [suiteReq, suiteNext] startCtx).1.trace =
      [Event.caseEv "R" "r", Event.caseEv "R" "g", Event.teardownEv "R",
       Event.caseEv "S2" "n"]) := by
  refine ⟨?_, ?_, rfl, rfl⟩
  · intro c nm tc ln fl fn ex hs hc
    simpa using assert_fail_step true ln fl fn ex hs hc
  · intro rest c nm tc ln fl fn ex hs hc
    have hstep := assert_fail_step true ln fl fn ex hs hc
    simp only [runBody, hstep]
    rfl

/-- Witness for C5's general parts at a concrete context. -/
theorem C5_require_fail_aborts_case_only_witness :
    runBody (.assertA false true 41 "rq.cpp" "r" "p != q" :: [.raiseExc .other])
        { startCtx with curSuiteName := some "R", curCase := some tcReq } =
      ({ startCtx with curSuiteName := some "R", curCase := some tcReq
                     , results := startCtx.results ++
                         [test_result.make_fail 41 "rq.cpp" "R" "r" "r"
                           ("Assertion failed: " ++ "p != q") mainThread] },
        some .abort) :=
  C5_require_fail_aborts_case_only.2.1 [.raiseExc .other]
    { startCtx with curSuiteName := some "R", curCase := some tcReq }
    "R" tcReq 41 "rq.cpp" "r" "p != q" rfl rfl

/-- C10: a raising setup hook means no case body runs, no per-case
record is emitted, and teardown is not invoked (the `suite_initializer`
constructor never completed); the value propagates to the manager,
where a non-fatal unrecognized value produces exactly one synthetic
aggregator-level `exception` record and no further suite runs. -/
theorem C10_setup_raise_skips_everything :
    ∀ (s : Suite) (rest : List Suite) (c ch : Ctx) (e : Exc) (su : List Action),
      s.setupAct = some su →
      runBody su { c with curSuiteName := some s.name
                          , trace := c.trace ++ [Event.setupEv s.name] } = (ch, some e) →
      (∀ m, e ≠ .fatal m) →
      suite_run s { c with curSuiteName := some s.name } = (ch, .exc e) ∧
      ch.trace = c.trace ++ [Event.setupEv s.name] ∧
      manager_run (s :: rest) c =
        ({ ch with results := ch.results ++ [managerCatchAllRecord] },
          some ((ch.results ++ [managerCatchAllRecord]).map test_result.to_string,
            EXIT_SUCCESS)) := by
  intro s rest c ch e su hset hbody hnf
  have hsp : setup_phase s { c with curSuiteName := some s.name } = (ch, some e) := by
    rw [setup_phase_some _ hset]
    exact hbody
  have hsr := suite_run_setup_exc hsp
  refine ⟨hsr, ?_, ?_⟩
  · have h := (runBody_pres su
      { c with curSuiteName := some s.name
               , trace := c.trace ++ [Event.setupEv s.name] }).2.2
    rw [hbody] at h
    simpa using h
  · exact manager_run_catch_all (runSuites_cons_exc rest hsr) hnf

/-- Witness for C10: a setup hook throwing a `std::exception`. -/
theorem C10_setup_raise_skips_everything_witness :
    suite_run suiteSetupThrow { startCtx with curSuiteName := some "E" } =
      (⟨[], some "E", none, [Event.setupEv "E"]⟩, .exc (.std "setup boom")) ∧
    (⟨[], some "E", none, [Event.setupEv "E"]⟩ : Ctx).trace =
      startCtx.trace ++ [Event.setupEv "E"] ∧
    manager_run [suiteSetupThrow, suiteSc] startCtx =
      (⟨[managerCatchAllRecord], some "E", none, [Event.setupEv "E"]⟩,
        some ([managerCatchAllRecord].map test_result.to_string, EXIT_SUCCESS)) :=
  C10_setup_raise_skips_everything suiteSetupThrow [suiteSc] startCtx
    ⟨[], some "E", none, [Event.setupEv "E"]⟩ (.std "setup boom")
    [.raiseExc (.std "setup boom")] rfl rfl (fun _ h => nomatch h)

/-- C2: with earlier suites completing normally and one case body of
suite `s` raising `fatal_error`, the suite's `run()` appends an `error`
record with the signal's message and re-raises the `fatal_error`; the
manager then runs no further suite, keeps all collected records, and
still produces the report. -/
theorem C2_fatal_aborts_run_still_reports :
    ∀ (ss1 ss2 : List Suite) (s : Suite) (c0 ca csp cp cb ct : Ctx)
      (pre post : List CaseDesc) (tc : CaseDesc) (m : String),
      runSuites ss1 c0 = (ca, .normal) →
      s.cases = pre ++ tc :: post →
      setup_phase s { ca with curSuiteName := some s.name } = (csp, none) →
      caseLoop s.name pre csp = (cp, none) →
      runBody tc.body (bodyCtx s.name tc cp) = (cb, some (.fatal m)) →
      teardown_phase s { cb with results := cb.results ++
          [test_result.make_error tc.line tc.file s.name tc.name "" m mainThread] } =
        (ct, none) →
      suite_run s { ca with curSuiteName := some s.name } = (ct, .exc (.fatal m)) ∧
      manager_run (ss1 ++ s :: ss2) c0 =
        (ct, some (ct.results.map test_result.to_string, EXIT_SUCCESS)) := by
  intro ss1 ss2 s c0 ca csp cp cb ct pre post tc m h1 hcases hsp hpre hbr htd
  have hsr := suite_run_fatal_case rfl hcases hsp hpre hbr htd
  refine ⟨hsr, ?_⟩
  have hrs : runSuites (ss1 ++ s :: ss2) c0 = (ct, .exc (.fatal m)) := by
    rw [runSuites_append _ h1]
    exact runSuites_cons_exc _ hsr
  exact manager_run_fatal hrs

/-- Witness for C2: one fatally-failing suite followed by a suite that
never runs. -/
theorem C2_fatal_aborts_run_still_reports_witness :
    suite_run suiteCX3 { startCtx with curSuiteName := some "CX3" } =
      (cx3ErrCtx, .exc (.fatal "halt")) ∧
    manager_run [suiteCX3, suiteNever] startCtx =
      (cx3ErrCtx, some (cx3ErrCtx.results.map test_result.to_string, EXIT_SUCCESS)) :=
  C2_fatal_aborts_run_still_reports [] [suiteNever] suiteCX3 startCtx startCtx
    { startCtx with curSuiteName := some "CX3" }
    { startCtx with curSuiteName := some "CX3" }
    ⟨[], some "CX3", some tcBoom, [Event.caseEv "CX3" "boom"]⟩
    cx3ErrCtx [] [] tcBoom "halt" rfl rfl rfl rfl rfl rfl

/-- C1 counterexample: in a suite with setup and teardown hooks and
`K = 2` cases whose first case throws `fatal_error`, the second case
body is never invoked, so `run()` does not invoke "each of the K case
bodies exactly once" on every run. -/
theorem C1_counterexample_fatal_skips_later_cases :
    (suite_run suiteCX1 { startCtx with curSuiteName := some "CX1" }).1.trace =
      [Event.setupEv "CX1", Event.caseEv "CX1" "k1", Event.teardownEv "CX1"] ∧
    Event.caseEv "CX1" "k2" ∉
      (suite_run suiteCX1 { startCtx with curSuiteName := some "CX1" }).1.trace ∧
    (suite_run suiteCX1 { startCtx with curSuiteName := some "CX1" }).1.trace ≠
      [Event.setupEv "CX1", Event.caseEv "CX1" "k1", Event.caseEv "CX1" "k2",
       Event.teardownEv "CX1"] := by
  refine ⟨rfl, ?_, ?_⟩ <;> decide

/-- C1 (amended): with non-raising hooks, `run()` invokes setup once,
then each case body exactly once in registration order, then teardown
once, regardless of non-fatal assertion failures, case aborts, or
other exceptions in case bodies; when a case body raises a fatal
signal, the cases before it ran once each, the cases after it are never
invoked, and setup and teardown still run exactly once. -/
theorem C1_amended_hooks_once_cases_in_order :
    (∀ (s : Suite) (c : Ctx) (nm : String) (su td : List Action),
      c.curSuiteName = some nm → s.setupAct = some su → pureHook su = true →
      s.teardownAct = some td → pureHook td = true →
      (∀ tc ∈ s.cases, bodyNoFatal tc.body = true) →
      ∃ c', suite_run s c = (c', .normal) ∧
        c'.trace = c.trace ++ [Event.setupEv s.name] ++
          s.cases.map (fun tc => Event.caseEv s.name tc.name) ++
          [Event.teardownEv s.name]) ∧
    (∀ (s : Suite) (c csp cp cb : Ctx) (pre post : List CaseDesc) (tc : CaseDesc)
        (nm m : String) (td : List Action),
      c.curSuiteName = some nm → s.cases = pre ++ tc :: post →
      setup_phase s c = (csp, none) →
      caseLoop s.name pre csp = (cp, none) →
      runBody tc.body (bodyCtx s.name tc cp) = (cb, some (.fatal m)) →
      s.teardownAct = some td → pureHook td = true →
      ∃ ct, suite_run s c = (ct, .exc (.fatal m)) ∧
        ct.trace = cp.trace ++
          [Event.caseEv s.name tc.name, Event.teardownEv s.name]) := by
  constructor
  · intro s c nm su td hs hsu hpu htd hpt hall
    exact suite_run_trace_ok hs hsu hpu htd hpt hall
  · intro s c csp cp cb pre post tc nm m td hs hcases hsp hpre hbr htdact hpt
    have hsps : csp.curSuiteName = some nm := by
      have h := setup_phase_curSuite s c
      rw [hsp] at h
      simp only at h
      rw [h]
      exact hs
    have hcps : cp.curSuiteName = some nm := by
      have h := caseLoop_curSuite s.name pre csp
      rw [hpre] at h
      simp only at h
      rw [h]
      exact hsps
    have hcbpres := runBody_pres tc.body (bodyCtx s.name tc cp)
    rw [hbr] at hcbpres
    have hcbs : cb.curSuiteName = some nm := by
      have h := hcbpres.1
      simp only [bodyCtx] at h
      rw [h]
      exact hcps
    have hcbt : cb.trace = cp.trace ++ [Event.caseEv s.name tc.name] := by
      have h := hcbpres.2.2
      simp only [bodyCtx] at h
      simpa using h
    have hcerrs : ({ cb with results := cb.results ++
        [test_result.make_error tc.line tc.file s.name tc.name "" m mainThread] } :
          Ctx).curSuiteName = some nm := hcbs
    obtain ⟨rs2, htdp⟩ := teardown_phase_pure hcerrs htdact hpt
    refine ⟨_, suite_run_fatal_case hs hcases hsp hpre hbr htdp, ?_⟩
    show cb.trace ++ [Event.teardownEv s.name] = _
    rw [hcbt, List.append_assoc]
    rfl

/-- Witness for C1's amended claim: a suite with hooks whose second
case aborts itself: setup, both cases in order, then teardown. -/
theorem C1_amended_hooks_once_cases_in_order_witness :
    (∀ tc ∈ suiteOk.cases, bodyNoFatal tc.body = true) ∧
    (∃ c', suite_run suiteOk { startCtx with curSuiteName := some "OK1" } =
        (c', .normal) ∧
      c'.trace = ({ startCtx with curSuiteName := some "OK1" } : Ctx).trace ++
        [Event.setupEv suiteOk.name] ++
        suiteOk.cases.map (fun tc => Event.caseEv suiteOk.name tc.name) ++
        [Event.teardownEv suiteOk.name]) :=
  ⟨by decide,
   C1_amended_hooks_once_cases_in_order.1 suiteOk
     { startCtx with curSuiteName := some "OK1" } "OK1" [] []
     rfl rfl rfl rfl rfl (by decide)⟩

/-- C3 counterexample: after a fatal signal propagates out of
`test_suite_manager::run`'s suite loop, the current-suite and
current-case pointers are NOT null: the `current_suite_ = nullptr` and
`current_case_ = nullptr` assignments are skipped by the unwinding. -/
theorem C3_counterexample_pointers_not_cleared_on_fatal :
    (manager_run [suiteCX3] startCtx).1.curSuiteName = some "CX3" ∧
    (manager_run [suiteCX3] startCtx).1.curCase = some tcBoom ∧
    (manager_run [suiteCX3] startCtx).1.curSuiteName ≠ none ∧
    (manager_run [suiteCX3] startCtx).1.curCase ≠ none := by
  refine ⟨rfl, rfl, ?_, ?_⟩ <;> decide

/-- C3 (amended): a case body always executes with the current case set
to that case; when the whole suite loop completes normally the manager
leaves both the current suite and the current case null; when a fatal
signal propagates, the manager's state is exactly the state at the
throw (so the pointers keep their last values). -/
theorem C3_amended_null_only_on_normal_completion :
    (∀ (ss : List Suite) (c c1 : Ctx), c.curCase = none →
      runSuites ss c = (c1, .normal) →
      (manager_run ss c).1.curSuiteName = none ∧
      (manager_run ss c).1.curCase = none) ∧
    (∀ (sname : String) (tc : CaseDesc) (c : Ctx),
      (bodyCtx sname tc c).curCase = some tc) ∧
    (∀ (ss : List Suite) (c c1 : Ctx) (m : String),
      runSuites ss c = (c1, .exc (.fatal m)) →
      (manager_run ss c).1 = c1) := by
  refine ⟨?_, fun sname tc c => rfl, ?_⟩
  · intro ss c c1 h0 h
    have h2 : c1.curCase = none := runSuites_normal_curCase h0 h
    rw [manager_run_normal h]
    exact ⟨rfl, h2⟩
  · intro ss c c1 m h
    rw [manager_run_fatal h]

/-- Witness for C3's amended claim on a normally-completing run. -/
theorem C3_amended_null_only_on_normal_completion_witness :
    startCtx.curCase = none ∧
    ((manager_run [suiteSc] startCtx).1.curSuiteName = none ∧
     (manager_run [suiteSc] startCtx).1.curCase = none) :=
  ⟨rfl,
   C3_amended_null_only_on_normal_completion.1 [suiteSc] startCtx scFinalCtx rfl rfl⟩

end ut
end xtl
